import Mathlib

/-!
Verification of the cookie-refresh manager in `refresh_cookie.py`
(class `CookieManager`).

Modelling conventions:
* Python strings are lists of characters (`PyStr`).
* Python dictionaries are association lists in insertion order
  (`Entries`), matching CPython dict semantics: updating an existing
  key keeps its position, inserting a new key appends.
* Wall-clock timestamps are integers (seconds).
* The external collaborators — token validator (`xianyu_api.get_token`),
  HTTP client (`requests.get`), cookie codec (`trans_cookies`,
  `generate_device_id` from `utils.xianyu_utils`, outside the given
  sources and therefore kept abstract as function parameters),
  persistence file and the environment variable — are explicit inputs
  to each operation.
-/

/-- Python `str` modelled as a list of characters. -/
abbrev PyStr := List Char

/-- The whitespace characters removed by Python `str.strip()` (ASCII fragment). -/
def isSpaceChar (c : Char) : Bool :=
  c = ' ' || c = '\t' || c = '\n' || c = '\r' || c = '\x0b' || c = '\x0c'

/-- Python `str.strip()`: drop leading and trailing whitespace. -/
def pyStrip (s : PyStr) : PyStr :=
  ((s.dropWhile isSpaceChar).reverse.dropWhile isSpaceChar).reverse

/-- Python `str.split(sep)` for a one-character separator: splits at every
occurrence of `sep`; the result is never empty (`"".split(sep) == [""]`). -/
def pySplit (sep : Char) : PyStr → List PyStr
  | [] => [[]]
  | c :: cs =>
    if c = sep then [] :: pySplit sep cs
    else
      match pySplit sep cs with
      | r :: rs => (c :: r) :: rs
      | [] => [[c]]

/-- A Python dict from cookie name to value, in insertion order. -/
abbrev Entries := List (PyStr × PyStr)

/-- Python `d.get(k)` / `d[k]` as an `Option`. -/
def dictGet (d : Entries) (k : PyStr) : Option PyStr :=
  match d with
  | [] => none
  | (n, v) :: rest => if n = k then some v else dictGet rest k

/-- Python `k in d`. -/
def dictContains (d : Entries) (k : PyStr) : Bool :=
  match d with
  | [] => false
  | (n, _) :: rest => n = k || dictContains rest k

/-- Python `d[k] = v`: update in place if the key exists, else append. -/
def dictInsert (d : Entries) (k v : PyStr) : Entries :=
  match d with
  | [] => [(k, v)]
  | (n, w) :: rest => if n = k then (k, v) :: rest else (n, w) :: dictInsert rest k v

/-- The keys of a dict, in order. -/
def dictKeys (d : Entries) : List PyStr := d.map Prod.fst

/-- The `f"{name}={value}"` fragment built for `cookies_str_parts`
(source lines 191, 197, 206). -/
def serializePair (p : PyStr × PyStr) : PyStr := p.1 ++ '=' :: p.2

/-- The separator of `"; ".join(cookies_str_parts)` (source line 208). -/
def cookieSep : PyStr := [';', ' ']

/-- The canonical semicolon-joined `name=value` serialization of a dict. -/
def serializeEntries (d : Entries) : PyStr :=
  List.intercalate cookieSep (d.map serializePair)

/-- The in-memory state of `CookieManager` (source lines 29-32):
`cookies` and `cookies_str` are `None` until populated, `device_id` may
stay `None`, and `last_refresh_time` is a wall-clock timestamp. -/
structure CMState where
  cookies : Option Entries
  cookies_str : Option PyStr
  device_id : Option PyStr
  last_refresh_time : Int
  deriving DecidableEq

/-- `CHECK_INTERVAL = 60 * 10` (source line 14). -/
def CHECK_INTERVAL : Nat := 60 * 10

/-- `COOKIE_EXPIRY_THRESHOLD = 60 * 60 * 3` (source line 16). -/
def COOKIE_EXPIRY_THRESHOLD : Int := 60 * 60 * 3

/-- Python truthiness of `self.cookies`: falsy when `None` or an empty dict. -/
def cookiesTruthy : Option Entries → Bool
  | none => false
  | some d => !d.isEmpty

/-- Python truthiness of an optional string: falsy when `None` or empty. -/
def strOptTruthy : Option PyStr → Bool
  | none => false
  | some s => !s.isEmpty

/-- Outcome of `self.xianyu_api.get_token(...)` (source line 138): either a
response carrying an optional `ret` list, or a raised exception. -/
inductive ApiResult where
  | ok (ret : Option (List PyStr))
  | exn
  deriving DecidableEq

/-- `check_cookie_valid` (source lines 125-152). `hasApi` models whether
`self.xianyu_api` is set; `resp` is the validator's reply; `now` is
`datetime.now().timestamp()` at the threshold comparison. -/
def check_cookie_valid (st : CMState) (hasApi : Bool) (resp : ApiResult) (now : Int) : Bool :=
  if !cookiesTruthy st.cookies || !hasApi then false
  else
    match resp with
    | .exn => false
    | .ok ret =>
      match ret with
      | some (r0 :: _) =>
        if List.isPrefixOf "SUCCESS".data r0 then
          if now - st.last_refresh_time > COOKIE_EXPIRY_THRESHOLD then false else true
        else false
      | _ => false

/-- `_save_cookie_to_file` (source lines 87-103): the write either succeeds
or fails according to the environment (`writeOk`); every exception is caught
inside, so there is no in-memory effect — only the returned flag differs,
and both callers discard it. -/
def _save_cookie_to_file (_st : CMState) (writeOk : Bool) : Bool := writeOk

/-- `set_cookies` (source lines 105-119): replace `cookies`/`cookies_str`,
replace `device_id` only when the argument is truthy, then save. -/
def set_cookies (st : CMState) (cookies_dict : Entries) (cookies_str : PyStr)
    (device_id : Option PyStr) (writeOk : Bool) : CMState :=
  let st1 := { st with cookies := some cookies_dict, cookies_str := some cookies_str }
  let st2 := if strOptTruthy device_id then { st1 with device_id := device_id } else st1
  let _ := _save_cookie_to_file st2 writeOk
  st2

/-- `get_cookies` (source lines 121-123). -/
def get_cookies (st : CMState) : Option Entries × Option PyStr × Option PyStr :=
  (st.cookies, st.cookies_str, st.device_id)

/-- What the persistence file yields when it exists and parses as JSON:
each field is present or absent (`cookie_data.get`). -/
structure FileData where
  cookies : Option Entries
  cookies_str : Option PyStr
  device_id : Option PyStr
  last_refresh_time : Option Int

/-- `_load_cookie_from_file` (source lines 44-61): `file = none` models a
missing or unreadable/corrupt file; loading succeeds only when both
`"cookies"` and `"cookies_str"` keys are present, in which case all four
fields are replaced (`last_refresh_time` defaults to `now`). -/
def _load_cookie_from_file (st : CMState) (file : Option FileData) (now : Int) :
    CMState × Bool :=
  match file with
  | none => (st, false)
  | some d =>
    match d.cookies, d.cookies_str with
    | some c, some s =>
      ({ st with cookies := some c, cookies_str := some s,
                 device_id := d.device_id,
                 last_refresh_time := d.last_refresh_time.getD now }, true)
    | _, _ => (st, false)

/-- `_load_cookie_from_env` (source lines 63-85): `env` is `COOKIES_STR`;
`transCookies` and `generateDeviceId` are the cookie codec from
`utils.xianyu_utils` (outside the given sources), kept abstract. Line 67's
`if cookies_str:` is Python truthiness, so an unset or empty-string
variable fails the load with no mutation; the device id is derived only
when the `unb` entry is present and non-empty (line 76's `if user_id:`). -/
def _load_cookie_from_env (st : CMState) (env : Option PyStr)
    (transCookies : PyStr → Entries) (generateDeviceId : PyStr → PyStr) :
    CMState × Bool :=
  match env with
  | none => (st, false)
  | some s =>
    if s.isEmpty then (st, false)
    else
      let c := transCookies s
      let st1 := { st with cookies_str := some s, cookies := some c }
      let st2 :=
        match dictGet c "unb".data with
        | some u =>
          if u.isEmpty then st1 else { st1 with device_id := some (generateDeviceId u) }
        | none => st1
      (st2, true)

/-- One `Set-Cookie` header string parsed as at source lines 188-189 /
194-195: the name is `split('=')[0].strip()`, the value is
`split('=')[1].split(';')[0].strip()`; `none` models the `IndexError`
raised by `[1]` when the header contains no `'='`. -/
def parseSetCookie (s : PyStr) : Option (PyStr × PyStr) :=
  match pySplit '=' s with
  | p0 :: p1 :: _ => some (pyStrip p0, pyStrip ((pySplit ';' p1).headD []))
  | _ => none

/-- The loop over a list-valued `Set-Cookie` header (source lines 186-191),
accumulating `cookies_dict` and `cookies_str_parts`; `none` models an
exception escaping the loop. -/
def processHeaders : List PyStr → Entries → List PyStr → Option (Entries × List PyStr)
  | [], d, parts => some (d, parts)
  | h :: hs, d, parts =>
    match parseSetCookie h with
    | none => none
    | some (n, v) => processHeaders hs (dictInsert d n v) (parts ++ [serializePair (n, v)])

/-- The shape of `response.headers['Set-Cookie']` when present: a list of
header strings or a single string (source line 186's `isinstance` test). -/
inductive SetCookieVal where
  | many (hs : List PyStr)
  | single (h : PyStr)
  deriving DecidableEq

/-- The whole `Set-Cookie` processing block (source lines 180-197),
yielding `cookies_dict` and `cookies_str_parts` or an exception. -/
def parseSetCookieVal : SetCookieVal → Option (Entries × List PyStr)
  | .many hs => processHeaders hs [] []
  | .single h =>
    match parseSetCookie h with
    | some (n, v) => some (dictInsert [] n v, [serializePair (n, v)])
    | none => none

/-- Outcome of `requests.get(REFRESH_COOKIE_URL, ...)` (source line 177):
a raised exception, or a response whose `Set-Cookie` header is absent or
present with the given shape. -/
abbrev HttpResult := Except Unit (Option SetCookieVal)

/-- The merge of the existing cookies over the freshly parsed ones
(source lines 202-206): existing names not already in `cookies_dict` are
appended to both the dict and the string parts. -/
def mergeOld : Entries → Entries × List PyStr → Entries × List PyStr
  | [], acc => acc
  | (n, v) :: rest, (d, parts) =>
    if dictContains d n then mergeOld rest (d, parts)
    else mergeOld rest (d ++ [(n, v)], parts ++ [serializePair (n, v)])

/-- Result of one `refresh_cookie_with_requests` call: the returned boolean,
the state after the call, and — for the claim that no HTTP request is issued
when no cookie can be loaded — `request = some h` iff `requests.get` was
invoked with `h` as the `Cookie` request header (source line 173). -/
structure RefreshResult where
  ok : Bool
  st : CMState
  request : Option (Option PyStr)
  deriving DecidableEq

/-- The load-if-absent prologue of `refresh_cookie_with_requests`
(source lines 160-164): when `self.cookies` is falsy, try the file and
then the environment; the boolean is `False` exactly when the early
`return False` at line 164 fires. -/
def loadIfAbsent (st : CMState) (file : Option FileData) (env : Option PyStr)
    (transCookies : PyStr → Entries) (generateDeviceId : PyStr → PyStr) (now : Int) :
    CMState × Bool :=
  if cookiesTruthy st.cookies then (st, true)
  else
    match _load_cookie_from_file st file now with
    | (st1, true) => (st1, true)
    | (st1, false) => _load_cookie_from_env st1 env transCookies generateDeviceId

/-- The body of `refresh_cookie_with_requests` after the load prologue
(source lines 166-223): issue the GET, fail on a missing `Set-Cookie`
header or any exception (including the parse `IndexError` and the
`AttributeError` when `self.cookies` is `None` at the merge), otherwise
merge, serialize, install the new record with `last_refresh_time = now`,
save (result discarded) and return `True`. -/
def refreshCore (st1 : CMState) (http : HttpResult) (writeOk : Bool) (now : Int) :
    RefreshResult :=
  match http with
  | .error _ => ⟨false, st1, some st1.cookies_str⟩
  | .ok none => ⟨false, st1, some st1.cookies_str⟩
  | .ok (some sc) =>
    match parseSetCookieVal sc, st1.cookies with
    | some (d0, parts0), some old =>
      let merged := mergeOld old (d0, parts0)
      let newStr := List.intercalate cookieSep merged.2
      let st2 := { st1 with cookies := some merged.1, cookies_str := some newStr,
                            last_refresh_time := now }
      let _ := _save_cookie_to_file st2 writeOk
      ⟨true, st2, some st1.cookies_str⟩
    | _, _ => ⟨false, st1, some st1.cookies_str⟩

/-- `refresh_cookie_with_requests` (source lines 154-223). -/
def refresh_cookie_with_requests (st : CMState) (file : Option FileData) (env : Option PyStr)
    (transCookies : PyStr → Entries) (generateDeviceId : PyStr → PyStr)
    (http : HttpResult) (writeOk : Bool) (now : Int) : RefreshResult :=
  match loadIfAbsent st file env transCookies generateDeviceId now with
  | (st1, false) => ⟨false, st1, none⟩
  | (st1, true) => refreshCore st1 http writeOk now

/-- The pairs obtained by parsing each header in order. -/
def parsedPairs (hs : List PyStr) : Entries := hs.filterMap parseSetCookie

/-- The header list processed by the `Set-Cookie` block, used to state the
distinct-names condition uniformly over `HttpResult` values. -/
def headersOf : HttpResult → List PyStr
  | .ok (some (.many hs)) => hs
  | .ok (some (.single h)) => [h]
  | _ => []

/-- Left-biased choice on options, for stating the merge policy. -/
def optOr (a b : Option PyStr) : Option PyStr :=
  match a with
  | some x => some x
  | none => b

/-- The specification's reading of the header parse (spec §4.1, strategy 2):
"first `=`-delimited segment is the name, the remainder up to the first `;`
is the value" — i.e. the value is the whole remainder after the first `'='`,
truncated at the first `';'`. Stated only to be compared with
`parseSetCookie`, the parse the code performs. -/
def specParseSetCookie (s : PyStr) : Option (PyStr × PyStr) :=
  match pySplit '=' s with
  | p0 :: p1 :: ps =>
    some (pyStrip p0, pyStrip ((pySplit ';' (List.intercalate ['='] (p1 :: ps))).headD []))
  | _ => none

/-- The inter-check sleep of `_auto_refresh_loop` (source lines 266-269):
`for _ in range(CHECK_INTERVAL): if self.stop_event.is_set(): break;
time.sleep(1)`. Discrete time: each `sleep(1)` advances the clock by one
unit; `isSet t` is the value of the stop event at time `t`; the first
argument of the recursion is the remaining range, the second the current
time; the result is the time at which the sleep phase ends. -/
def sleepPhase (isSet : Nat → Bool) : Nat → Nat → Nat
  | 0, t => t
  | n + 1, t => if isSet t then t else sleepPhase isSet n (t + 1)

/-- The outer `while not self.stop_event.is_set()` loop of
`_auto_refresh_loop` (source lines 256-269): each iteration runs the
check/refresh body (modelled as a duration function `body`, with
`body t ≥ t`) and then the sleep phase. `fuel` bounds the number of
iterations considered; `some t` means the loop observed the stop event and
exited at time `t`. -/
def autoRefreshLoop (isSet : Nat → Bool) (body : Nat → Nat) : Nat → Nat → Option Nat
  | 0, _ => none
  | fuel + 1, t =>
    if isSet t then some t
    else autoRefreshLoop isSet body fuel (sleepPhase isSet CHECK_INTERVAL (body t))

/-- `stop_auto_refresh` (source lines 247-252): after setting the stop event
at time `stopAt`, `self.refresh_thread.join(timeout=5)` returns as soon as
the thread exits, and after at most 5 seconds in any case; the result is the
time at which `stop_auto_refresh` returns. -/
def stopJoinReturn (threadExitsAt stopAt : Nat) : Nat :=
  min threadExitsAt (stopAt + 5)

/-- The segment of `s` before the first occurrence of `sep`. -/
def takeUntil (sep : Char) (s : PyStr) : PyStr :=
  s.takeWhile (fun c => !(c == sep))

theorem pySplit_ne_nil (sep : Char) (s : PyStr) : pySplit sep s ≠ [] := by
  cases s with
  | nil => simp [pySplit]
  | cons c cs =>
    simp only [pySplit]
    split
    · simp
    · split <;> simp

theorem pySplit_headD (sep : Char) (s : PyStr) :
    (pySplit sep s).headD [] = takeUntil sep s := by
  induction s with
  | nil => rfl
  | cons c cs ih =>
    by_cases h : c = sep
    · simp [pySplit, takeUntil, List.takeWhile, h]
    · have hb : (c == sep) = false := by simp [h]
      rcases h2 : pySplit sep cs with _ | ⟨r, rs⟩
      · exact absurd h2 (pySplit_ne_nil sep cs)
      · rw [h2] at ih
        simp only [pySplit, if_neg h, h2, takeUntil, List.takeWhile, hb]
        simp only [takeUntil] at ih
        simpa using ih

theorem pySplit_sep_cons (sep : Char) (n v : PyStr) (h : sep ∉ n) :
    pySplit sep (n ++ sep :: v) = n :: pySplit sep v := by
  induction n with
  | nil => simp [pySplit]
  | cons a as ih =>
    have ha : ¬ a = sep := by
      intro e
      exact h (by simp [e])
    have h' : sep ∉ as := fun e => h (List.mem_cons_of_mem _ e)
    have ihh := ih h'
    show pySplit sep (a :: (as ++ sep :: v)) = (a :: as) :: pySplit sep v
    simp only [pySplit, if_neg ha]
    rw [ihh]

theorem optOr_none_right (a : Option PyStr) : optOr a none = a := by
  cases a <;> rfl

theorem dictInsert_eq_append (d : Entries) (k v : PyStr) (h : dictContains d k = false) :
    dictInsert d k v = d ++ [(k, v)] := by
  induction d with
  | nil => rfl
  | cons p rest ih =>
    obtain ⟨n, w⟩ := p
    simp only [dictContains, Bool.or_eq_false_iff, decide_eq_false_iff_not] at h
    simp only [dictInsert, if_neg h.1, List.cons_append, ih h.2]

theorem dictContains_append (d e : Entries) (k : PyStr) :
    dictContains (d ++ e) k = (dictContains d k || dictContains e k) := by
  induction d with
  | nil => simp [dictContains]
  | cons p rest ih =>
    obtain ⟨n, w⟩ := p
    simp [dictContains, ih, Bool.or_assoc]

theorem dictGet_append (d e : Entries) (k : PyStr) :
    dictGet (d ++ e) k = optOr (dictGet d k) (dictGet e k) := by
  induction d with
  | nil => simp [dictGet, optOr]
  | cons p rest ih =>
    obtain ⟨n, v⟩ := p
    by_cases h : n = k
    · simp [dictGet, h, optOr]
    · simp [dictGet, h, ih]

theorem dictGet_isSome_of_contains (d : Entries) (k : PyStr) (h : dictContains d k = true) :
    (dictGet d k).isSome = true := by
  induction d with
  | nil => simp [dictContains] at h
  | cons p rest ih =>
    obtain ⟨n, v⟩ := p
    by_cases e : n = k
    · simp [dictGet, e]
    · simp only [dictContains, Bool.or_eq_true, decide_eq_true_eq] at h
      rcases h with h | h
      · exact absurd h e
      · simp [dictGet, e, ih h]

theorem dictGet_eq_none_of_not_contains (d : Entries) (k : PyStr)
    (h : dictContains d k = false) : dictGet d k = none := by
  induction d with
  | nil => rfl
  | cons p rest ih =>
    obtain ⟨n, v⟩ := p
    simp only [dictContains, Bool.or_eq_false_iff, decide_eq_false_iff_not] at h
    simp [dictGet, h.1, ih h.2]

theorem processHeaders_parse (hs : List PyStr) :
    ∀ (d : Entries) (parts : List PyStr) (r : Entries × List PyStr),
      processHeaders hs d parts = some r → ∀ x ∈ hs, (parseSetCookie x).isSome := by
  induction hs with
  | nil =>
    intro d parts r _ x hx
    cases hx
  | cons a as ih =>
    intro d parts r h x hx
    simp only [processHeaders] at h
    rcases hp : parseSetCookie a with _ | ⟨n, v⟩
    · rw [hp] at h
      cases h
    · rw [hp] at h
      rcases List.mem_cons.mp hx with hx | hx
      · rw [hx, hp]
        rfl
      · exact ih _ _ _ h x hx

theorem processHeaders_canon (hs : List PyStr) :
    ∀ (d : Entries) (parts : List PyStr),
      (∀ x ∈ hs, (parseSetCookie x).isSome) →
      (dictKeys (parsedPairs hs)).Nodup →
      (∀ k ∈ dictKeys (parsedPairs hs), dictContains d k = false) →
      processHeaders hs d parts =
        some (d ++ parsedPairs hs, parts ++ (parsedPairs hs).map serializePair) := by
  induction hs with
  | nil =>
    intro d parts _ _ _
    simp [processHeaders, parsedPairs]
  | cons a as ih =>
    intro d parts hparse hnodup hdisj
    obtain ⟨⟨n, v⟩, hp⟩ := Option.isSome_iff_exists.mp (hparse a (by simp))
    have hpp : parsedPairs (a :: as) = (n, v) :: parsedPairs as := by
      simp [parsedPairs, List.filterMap_cons, hp]
    rw [hpp] at hnodup hdisj
    simp only [dictKeys, List.map_cons, List.nodup_cons] at hnodup
    have hnd : dictContains d n = false :=
      hdisj n (by simp only [dictKeys, List.map_cons]; exact List.mem_cons_self _ _)
    have hparse' : ∀ x ∈ as, (parseSetCookie x).isSome := fun x hx => hparse x (by simp [hx])
    have hdisj' : ∀ k ∈ dictKeys (parsedPairs as), dictContains (d ++ [(n, v)]) k = false := by
      intro k hk
      rw [dictContains_append]
      have h1 : dictContains d k = false :=
        hdisj k (by simp only [dictKeys, List.map_cons]; exact List.mem_cons_of_mem _ hk)
      have h2 : dictContains [(n, v)] k = false := by
        have : ¬ n = k := by
          intro e
          rw [e] at hnodup
          exact hnodup.1 hk
        simp [dictContains, this]
      simp [h1, h2]
    simp only [processHeaders, hp]
    rw [dictInsert_eq_append d n v hnd]
    rw [ih (d ++ [(n, v)]) (parts ++ [serializePair (n, v)]) hparse' hnodup.2 hdisj', hpp]
    simp

theorem mergeOld_sync (old : Entries) :
    ∀ (d : Entries) (parts : List PyStr), parts = d.map serializePair →
      (mergeOld old (d, parts)).2 = (mergeOld old (d, parts)).1.map serializePair := by
  induction old with
  | nil =>
    intro d parts h
    simpa [mergeOld] using h
  | cons p rest ih =>
    intro d parts h
    obtain ⟨n, v⟩ := p
    cases hc : dictContains d n
    · simp only [mergeOld, hc, Bool.false_eq_true, if_false]
      apply ih
      rw [h]
      simp
    · simp only [mergeOld, hc, if_true]
      exact ih d parts h

theorem mergeOld_lookup (old : Entries) :
    ∀ (d : Entries) (parts : List PyStr) (k : PyStr),
      dictGet (mergeOld old (d, parts)).1 k = optOr (dictGet d k) (dictGet old k) := by
  induction old with
  | nil =>
    intro d parts k
    simp [mergeOld, dictGet, optOr_none_right]
  | cons p rest ih =>
    intro d parts k
    obtain ⟨n, v⟩ := p
    cases hc : dictContains d n
    · simp only [mergeOld, hc, Bool.false_eq_true, if_false]
      rw [ih, dictGet_append]
      by_cases e : n = k
      · subst e
        have hnone : dictGet d n = none := dictGet_eq_none_of_not_contains _ _ hc
        simp [hnone, optOr, dictGet]
      · have : dictGet [(n, v)] k = none := by simp [dictGet, e]
        rw [this, optOr_none_right]
        simp [dictGet, e]
    · simp only [mergeOld, hc, if_true]
      rw [ih]
      by_cases e : n = k
      · subst e
        have hsome := dictGet_isSome_of_contains d n hc
        rcases hg : dictGet d n with _ | x
        · rw [hg] at hsome
          simp at hsome
        · simp [optOr, dictGet]
      · simp [dictGet, e]

theorem refreshCore_request (st1 : CMState) (http : HttpResult) (w : Bool) (now : Int) :
    (refreshCore st1 http w now).request = some st1.cookies_str := by
  cases http with
  | error e => rfl
  | ok v =>
    cases v with
    | none => rfl
    | some sc =>
      simp only [refreshCore]
      rcases hp : parseSetCookieVal sc with _ | ⟨d0, parts0⟩ <;>
        rcases hco : st1.cookies with _ | old <;> simp

theorem refreshCore_ok_time (st1 : CMState) (http : HttpResult) (w : Bool) (now : Int)
    (h : (refreshCore st1 http w now).ok = true) :
    (refreshCore st1 http w now).st.last_refresh_time = now := by
  cases http with
  | error e => cases h
  | ok v =>
    cases v with
    | none => cases h
    | some sc =>
      simp only [refreshCore] at h ⊢
      rcases hp : parseSetCookieVal sc with _ | ⟨d0, parts0⟩ <;>
        rcases hco : st1.cookies with _ | old <;> simp [hp, hco] at h ⊢

theorem loadIfAbsent_of_truthy (st : CMState) (file : Option FileData) (env : Option PyStr)
    (tc : PyStr → Entries) (gd : PyStr → PyStr) (now : Int)
    (h : cookiesTruthy st.cookies = true) :
    loadIfAbsent st file env tc gd now = (st, true) := by
  simp [loadIfAbsent, h]

theorem load_file_false (st : CMState) (file : Option FileData) (now : Int)
    (h : (_load_cookie_from_file st file now).2 = false) :
    _load_cookie_from_file st file now = (st, false) := by
  rcases file with _ | ⟨dc, ds, dd, dt⟩
  · rfl
  · rcases dc with _ | c <;> rcases ds with _ | s <;>
      simp_all [_load_cookie_from_file]

theorem load_env_false (st : CMState) (env : Option PyStr)
    (tc : PyStr → Entries) (gd : PyStr → PyStr)
    (h : (_load_cookie_from_env st env tc gd).2 = false) :
    _load_cookie_from_env st env tc gd = (st, false) := by
  rcases env with _ | s
  · rfl
  · by_cases hse : s.isEmpty = true
    · simp [_load_cookie_from_env, hse]
    · simp [_load_cookie_from_env, hse] at h

/-- C1: with non-empty entries and a configured validator, when the token
check returns a response whose `ret[0]` starts with `"SUCCESS"`,
`check_cookie_valid` returns `false` if `now - last_refresh_time` exceeds
the 3-hour expiry threshold and `true` if it is within the threshold. -/
theorem checkValid_success_expiry (st : CMState) (resp : ApiResult) (now : Int)
    (r0 : PyStr) (rest : List PyStr)
    (hc : cookiesTruthy st.cookies = true)
    (hr : resp = ApiResult.ok (some (r0 :: rest)))
    (hp : List.isPrefixOf "SUCCESS".data r0 = true) :
    (now - st.last_refresh_time > COOKIE_EXPIRY_THRESHOLD →
      check_cookie_valid st true resp now = false) ∧
    (now - st.last_refresh_time ≤ COOKIE_EXPIRY_THRESHOLD →
      check_cookie_valid st true resp now = true) := by
  subst hr
  constructor
  · intro h
    simp [check_cookie_valid, hc, hp, h]
  · intro h
    have h' : ¬ now - st.last_refresh_time > COOKIE_EXPIRY_THRESHOLD := not_lt.mpr h
    simp [check_cookie_valid, hc, hp, h']

theorem checkValid_success_expiry_instance :
    check_cookie_valid ⟨some [("a".data, "1".data)], some "a=1".data, none, 0⟩ true
      (ApiResult.ok (some ["SUCCESS::OK".data])) 12600 = false ∧
    check_cookie_valid ⟨some [("a".data, "1".data)], some "a=1".data, none, 0⟩ true
      (ApiResult.ok (some ["SUCCESS::OK".data])) 10800 = true :=
  ⟨(checkValid_success_expiry _ _ 12600 _ _ (by decide) rfl (by decide)).1 (by decide),
   (checkValid_success_expiry _ _ 10800 _ _ (by decide) rfl (by decide)).2 (by decide)⟩

/-- C2: if a record is present and the passive strategy fails — the GET
raises, the response carries no `Set-Cookie` header, or parsing the header
raises — then `refresh_cookie_with_requests` returns `false` and the stored
record is exactly what it was before the call. -/
theorem refresh_failure_preserves_record (st : CMState) (file : Option FileData)
    (env : Option PyStr) (tc : PyStr → Entries) (gd : PyStr → PyStr)
    (http : HttpResult) (writeOk : Bool) (now : Int)
    (hrec : cookiesTruthy st.cookies = true)
    (hfail : http = Except.error () ∨ http = Except.ok none ∨
      ∃ sc, http = Except.ok (some sc) ∧ parseSetCookieVal sc = none) :
    (refresh_cookie_with_requests st file env tc gd http writeOk now).ok = false ∧
    (refresh_cookie_with_requests st file env tc gd http writeOk now).st = st := by
  have hl := loadIfAbsent_of_truthy st file env tc gd now hrec
  simp only [refresh_cookie_with_requests, hl]
  rcases hfail with h | h | ⟨sc, h, hp⟩
  · subst h
    exact ⟨rfl, rfl⟩
  · subst h
    exact ⟨rfl, rfl⟩
  · subst h
    cases hco : st.cookies <;> simp [refreshCore, hp, hco]

theorem refresh_failure_preserves_record_instance :
    (refresh_cookie_with_requests ⟨some [("a".data, "1".data)], some "a=1".data, none, 0⟩
        none none (fun _ => []) (fun _ => []) (Except.ok none) true 5).ok = false ∧
    (refresh_cookie_with_requests ⟨some [("a".data, "1".data)], some "a=1".data, none, 0⟩
        none none (fun _ => []) (fun _ => []) (Except.ok none) true 5).st =
      ⟨some [("a".data, "1".data)], some "a=1".data, none, 0⟩ :=
  refresh_failure_preserves_record _ _ _ _ _ _ _ _ (by decide) (Or.inr (Or.inl rfl))

/-- C6 counterexample: supplying the empty string as the device id is
"provided", yet `set_cookies` keeps the previous device id (`if device_id:`
is Python truthiness, so the empty string is treated like `None`). -/
theorem set_get_empty_device_counterexample :
    get_cookies (set_cookies ⟨none, none, some "old".data, 0⟩ [("a".data, "1".data)]
        "a=1".data (some []) true) =
      (some [("a".data, "1".data)], some "a=1".data, some "old".data) ∧
    some "old".data ≠ (some ([] : PyStr)) := by
  decide

/-- C6 amended: `set_cookies` followed by `get_cookies` returns exactly the
entries and raw string supplied; the supplied device id is recorded when it
is non-empty, otherwise (absent or empty string) the previous device id is
returned. -/
theorem set_then_get (st : CMState) (e : Entries) (raw : PyStr) (dev : Option PyStr)
    (writeOk : Bool) :
    get_cookies (set_cookies st e raw dev writeOk) =
      (some e, some raw, if strOptTruthy dev then dev else st.device_id) := by
  by_cases h : strOptTruthy dev = true <;> simp [get_cookies, set_cookies, h]

/-- C7: a failing persistence write (`writeOk = false`) is invisible to the
in-memory record: `set_cookies` still installs the supplied values, and
`refresh_cookie_with_requests` behaves exactly as with a successful write —
in particular a successful refresh still returns `true` and keeps
`last_refresh_time = now`. -/
theorem persistence_failure_no_rollback (st : CMState) (e : Entries) (raw : PyStr)
    (dev : Option PyStr) (file : Option FileData) (env : Option PyStr)
    (tc : PyStr → Entries) (gd : PyStr → PyStr) (http : HttpResult) (now : Int) :
    (set_cookies st e raw dev false).cookies = some e ∧
    (set_cookies st e raw dev false).cookies_str = some raw ∧
    refresh_cookie_with_requests st file env tc gd http false now =
      refresh_cookie_with_requests st file env tc gd http true now ∧
    ((refresh_cookie_with_requests st file env tc gd http false now).ok = true →
      (refresh_cookie_with_requests st file env tc gd http false now).st.last_refresh_time =
        now) := by
  refine ⟨?_, ?_, ?_, ?_⟩
  · by_cases h : strOptTruthy dev = true <;> simp [set_cookies, h]
  · by_cases h : strOptTruthy dev = true <;> simp [set_cookies, h]
  · rfl
  · intro h
    simp only [refresh_cookie_with_requests] at h ⊢
    rcases hl : loadIfAbsent st file env tc gd now with ⟨st1, b⟩
    rw [hl] at h
    cases b
    · simp at h
    · exact refreshCore_ok_time st1 http false now h

theorem persistence_failure_no_rollback_instance :
    (refresh_cookie_with_requests ⟨some [("b".data, "2".data)], some "b=2".data, none, 0⟩
        none none (fun _ => []) (fun _ => [])
        (Except.ok (some (SetCookieVal.single "a=9".data))) false 5).ok = true ∧
    (refresh_cookie_with_requests ⟨some [("b".data, "2".data)], some "b=2".data, none, 0⟩
        none none (fun _ => []) (fun _ => [])
        (Except.ok (some (SetCookieVal.single "a=9".data))) false 5).st.last_refresh_time =
      5 :=
  ⟨by decide,
   (persistence_failure_no_rollback _ [] [] none none none (fun _ => []) (fun _ => [])
      _ 5).2.2.2 (by decide)⟩

/-- C10: `set_cookies` never touches `last_refresh_time`, so the
proactive-expiry clock of `check_cookie_valid` keeps measuring from the last
load or refresh: a record installed by `set_cookies` more than 3 hours after
that point is reported invalid even though the validator accepts it. -/
theorem set_cookies_preserves_expiry_clock (st : CMState) (e : Entries) (raw : PyStr)
    (dev : Option PyStr) (writeOk : Bool) (resp : ApiResult) (now : Int)
    (r0 : PyStr) (rest : List PyStr)
    (he : e ≠ [])
    (hr : resp = ApiResult.ok (some (r0 :: rest)))
    (hp : List.isPrefixOf "SUCCESS".data r0 = true)
    (hexp : now - st.last_refresh_time > COOKIE_EXPIRY_THRESHOLD) :
    (set_cookies st e raw dev writeOk).last_refresh_time = st.last_refresh_time ∧
    check_cookie_valid (set_cookies st e raw dev writeOk) true resp now = false := by
  subst hr
  have htime : (set_cookies st e raw dev writeOk).last_refresh_time = st.last_refresh_time := by
    by_cases h : strOptTruthy dev = true <;> simp [set_cookies, h]
  refine ⟨htime, ?_⟩
  have hcook : (set_cookies st e raw dev writeOk).cookies = some e := by
    by_cases h : strOptTruthy dev = true <;> simp [set_cookies, h]
  have hct : cookiesTruthy (set_cookies st e raw dev writeOk).cookies = true := by
    rw [hcook]
    rcases e with _ | ⟨p, es⟩
    · exact absurd rfl he
    · rfl
  simp [check_cookie_valid, hct, hp, htime, hexp]

theorem set_cookies_preserves_expiry_clock_instance :
    (set_cookies ⟨none, none, none, 0⟩ [("a".data, "1".data)] "a=1".data none
      true).last_refresh_time = 0 ∧
    check_cookie_valid
      (set_cookies ⟨none, none, none, 0⟩ [("a".data, "1".data)] "a=1".data none true)
      true (ApiResult.ok (some ["SUCCESS::OK".data])) 20000 = false :=
  set_cookies_preserves_expiry_clock _ _ _ _ _ _ 20000 _ _ (by decide) rfl (by decide)
    (by decide)

/-- C3 counterexample: for the header `"a=b=c;d"` the code's parse keeps
only `"b"` — `split('=')[1]` is the segment between the first and second
`'='` — while the claim's reading (the entire remainder after the first
`'='`, up to the first `';'`) yields `"b=c"`. -/
theorem parse_value_not_whole_remainder :
    parseSetCookie "a=b=c;d".data = some ("a".data, "b".data) ∧
    specParseSetCookie "a=b=c;d".data = some ("a".data, "b=c".data) ∧
    parseSetCookie "a=b=c;d".data ≠ specParseSetCookie "a=b=c;d".data := by
  decide

/-- C3 amended: for every header of the form `name ++ "=" ++ rest` with no
`'='` in `name`, the parsed name is the stripped segment before the first
`'='`, and the parsed value is the stripped segment strictly between the
first and the second `'='` (the whole remainder when there is no second
`'='`), truncated at the first `';'`. -/
theorem parse_name_value_segments (n v : PyStr) (h : '=' ∉ n) :
    parseSetCookie (n ++ '=' :: v) =
      some (pyStrip n, pyStrip (takeUntil ';' (takeUntil '=' v))) := by
  rcases h2 : pySplit '=' v with _ | ⟨r, rs⟩
  · exact absurd h2 (pySplit_ne_nil _ _)
  · have hr : r = takeUntil '=' v := by
      have hh := pySplit_headD '=' v
      rw [h2] at hh
      simpa using hh
    unfold parseSetCookie
    rw [pySplit_sep_cons '=' n v h, h2]
    show some (pyStrip n, pyStrip ((pySplit ';' r).headD [])) = _
    rw [pySplit_headD ';' r, hr]

theorem parse_name_value_segments_instance :
    parseSetCookie ("a".data ++ '=' :: "b=c;d".data) =
      some (pyStrip "a".data, pyStrip (takeUntil ';' (takeUntil '=' "b=c;d".data))) :=
  parse_name_value_segments "a".data "b=c;d".data (by decide)

/-- C4 counterexample: with two `Set-Cookie` headers reissuing the same
name, `cookies_dict` keeps the last value but `cookies_str_parts` keeps
both fragments, so the resulting `raw` is not regenerated from the merged
mapping. -/
theorem refresh_merge_raw_counterexample :
    (refresh_cookie_with_requests ⟨some [("b".data, "2".data)], some "b=2".data, none, 0⟩
        none none (fun _ => []) (fun _ => [])
        (Except.ok (some (SetCookieVal.many ["a=1".data, "a=2".data]))) true 5).ok = true ∧
    (refresh_cookie_with_requests ⟨some [("b".data, "2".data)], some "b=2".data, none, 0⟩
        none none (fun _ => []) (fun _ => [])
        (Except.ok (some (SetCookieVal.many ["a=1".data, "a=2".data]))) true
        5).st.cookies = some [("a".data, "2".data), ("b".data, "2".data)] ∧
    (refresh_cookie_with_requests ⟨some [("b".data, "2".data)], some "b=2".data, none, 0⟩
        none none (fun _ => []) (fun _ => [])
        (Except.ok (some (SetCookieVal.many ["a=1".data, "a=2".data]))) true
        5).st.cookies_str = some "a=1; a=2; b=2".data ∧
    some "a=1; a=2; b=2".data ≠
      some (serializeEntries [("a".data, "2".data), ("b".data, "2".data)]) := by
  decide

/-- C4 amended: for a non-empty existing mapping and a response whose
`Set-Cookie` headers all parse with pairwise-distinct names, a successful
passive refresh yields entries equal to the parsed pairs overriding the
existing mapping — every existing name not reissued keeps its old value —
and `raw` regenerated from the merged mapping. -/
theorem refresh_merge_policy (st : CMState) (old : Entries) (hs : List PyStr)
    (file : Option FileData) (env : Option PyStr) (tc : PyStr → Entries)
    (gd : PyStr → PyStr) (writeOk : Bool) (now : Int)
    (hold : st.cookies = some old) (hne : old ≠ [])
    (hparse : ∀ x ∈ hs, (parseSetCookie x).isSome)
    (hnodup : (dictKeys (parsedPairs hs)).Nodup) :
    ∃ e,
      (refresh_cookie_with_requests st file env tc gd
        (Except.ok (some (SetCookieVal.many hs))) writeOk now).ok = true ∧
      (refresh_cookie_with_requests st file env tc gd
        (Except.ok (some (SetCookieVal.many hs))) writeOk now).st.cookies = some e ∧
      (∀ k, dictGet e k = optOr (dictGet (parsedPairs hs) k) (dictGet old k)) ∧
      (refresh_cookie_with_requests st file env tc gd
        (Except.ok (some (SetCookieVal.many hs))) writeOk now).st.cookies_str =
        some (serializeEntries e) := by
  have hct : cookiesTruthy st.cookies = true := by
    rw [hold]
    rcases old with _ | ⟨p, os⟩
    · exact absurd rfl hne
    · rfl
  have hl := loadIfAbsent_of_truthy st file env tc gd now hct
  have hph := processHeaders_canon hs [] [] hparse hnodup (fun k _ => rfl)
  simp only [List.nil_append] at hph
  simp only [refresh_cookie_with_requests, hl, refreshCore, parseSetCookieVal, hph, hold]
  refine ⟨(mergeOld old (parsedPairs hs, (parsedPairs hs).map serializePair)).1,
    ?_, ?_, ?_, ?_⟩
  · trivial
  · trivial
  · intro k
    exact mergeOld_lookup old (parsedPairs hs) _ k
  · have hsync := mergeOld_sync old (parsedPairs hs) ((parsedPairs hs).map serializePair) rfl
    show some (List.intercalate cookieSep
        (mergeOld old (parsedPairs hs, (parsedPairs hs).map serializePair)).2) = _
    rw [hsync]
    rfl

theorem refresh_merge_policy_instance :
    ∃ e,
      (refresh_cookie_with_requests
        ⟨some [("a".data, "1".data), ("b".data, "2".data)], some "a=1; b=2".data, none, 0⟩
        none none (fun _ => []) (fun _ => [])
        (Except.ok (some (SetCookieVal.many ["a=9".data]))) true 5).ok = true ∧
      (refresh_cookie_with_requests
        ⟨some [("a".data, "1".data), ("b".data, "2".data)], some "a=1; b=2".data, none, 0⟩
        none none (fun _ => []) (fun _ => [])
        (Except.ok (some (SetCookieVal.many ["a=9".data]))) true 5).st.cookies = some e ∧
      (∀ k, dictGet e k = optOr (dictGet (parsedPairs ["a=9".data]) k)
        (dictGet [("a".data, "1".data), ("b".data, "2".data)] k)) ∧
      (refresh_cookie_with_requests
        ⟨some [("a".data, "1".data), ("b".data, "2".data)], some "a=1; b=2".data, none, 0⟩
        none none (fun _ => []) (fun _ => [])
        (Except.ok (some (SetCookieVal.many ["a=9".data]))) true 5).st.cookies_str =
        some (serializeEntries e) :=
  refresh_merge_policy _ _ _ _ _ _ _ _ 5 rfl (by decide) (by decide) (by decide)

/-- C5 counterexample: `set_cookies` stores the `cookies_dict` and
`cookies_str` arguments independently and unchecked, so a caller can
complete `set_cookies` with `raw` diverging from the serialization of
`entries`. -/
theorem raw_entries_divergence_counterexample :
    (set_cookies ⟨none, none, none, 0⟩ [("a".data, "1".data)] "garbage".data none
      true).cookies = some [("a".data, "1".data)] ∧
    (set_cookies ⟨none, none, none, 0⟩ [("a".data, "1".data)] "garbage".data none
      true).cookies_str = some "garbage".data ∧
    some "garbage".data ≠ some (serializeEntries [("a".data, "1".data)]) := by
  decide

/-- C5 amended: `set_cookies` stores exactly the pair it is given, so the
invariant holds after it precisely when the caller supplies the canonical
serialization; after every successful `refresh_cookie_with_requests` whose
parsed `Set-Cookie` names are pairwise distinct, `raw` is the canonical
serialization of `entries`. -/
theorem raw_entries_sync :
    (∀ (st : CMState) (e : Entries) (dev : Option PyStr) (writeOk : Bool),
      (set_cookies st e (serializeEntries e) dev writeOk).cookies = some e ∧
      (set_cookies st e (serializeEntries e) dev writeOk).cookies_str =
        some (serializeEntries e)) ∧
    (∀ (st : CMState) (file : Option FileData) (env : Option PyStr)
        (tc : PyStr → Entries) (gd : PyStr → PyStr) (http : HttpResult)
        (writeOk : Bool) (now : Int),
      (dictKeys (parsedPairs (headersOf http))).Nodup →
      (refresh_cookie_with_requests st file env tc gd http writeOk now).ok = true →
      ∃ e,
        (refresh_cookie_with_requests st file env tc gd http writeOk now).st.cookies =
          some e ∧
        (refresh_cookie_with_requests st file env tc gd http writeOk now).st.cookies_str =
          some (serializeEntries e)) := by
  constructor
  · intro st e dev writeOk
    constructor <;> (by_cases h : strOptTruthy dev = true <;> simp [set_cookies, h])
  · intro st file env tc gd http writeOk now hnodup hok
    simp only [refresh_cookie_with_requests] at hok ⊢
    rcases hl : loadIfAbsent st file env tc gd now with ⟨st1, b⟩
    rw [hl] at hok
    cases b
    · simp at hok
    · cases http with
      | error e0 => simp [refreshCore] at hok
      | ok v =>
        cases v with
        | none => simp [refreshCore] at hok
        | some sc =>
          rcases hp : parseSetCookieVal sc with _ | ⟨d0, parts0⟩
          · rcases hco : st1.cookies with _ | old <;> simp [refreshCore, hp, hco] at hok
          · rcases hco : st1.cookies with _ | old
            · simp [refreshCore, hp, hco] at hok
            · have hsync : parts0 = d0.map serializePair := by
                cases sc with
                | single h0 =>
                  simp only [parseSetCookieVal] at hp
                  rcases hph : parseSetCookie h0 with _ | ⟨nn, vv⟩
                  · rw [hph] at hp
                    cases hp
                  · rw [hph] at hp
                    injection hp with hp2
                    obtain ⟨h1, h2⟩ := Prod.mk.inj hp2
                    rw [← h1, ← h2]
                    rfl
                | many hs =>
                  simp only [parseSetCookieVal] at hp
                  have hnd : (dictKeys (parsedPairs hs)).Nodup := by
                    simpa [headersOf] using hnodup
                  have hpar := processHeaders_parse hs [] [] _ hp
                  have hcanon := processHeaders_canon hs [] [] hpar hnd (fun k _ => rfl)
                  rw [hp] at hcanon
                  injection hcanon with hc2
                  obtain ⟨h1, h2⟩ := Prod.mk.inj hc2
                  rw [h1, h2]
                  simp
              refine ⟨(mergeOld old (d0, parts0)).1, ?_, ?_⟩
              · simp [refreshCore, hp, hco]
              · have hm := mergeOld_sync old d0 parts0 hsync
                simp [refreshCore, hp, hco, serializeEntries, hm]

theorem raw_entries_sync_instance :
    ∃ e,
      (refresh_cookie_with_requests
        ⟨some [("b".data, "2".data)], some "b=2".data, none, 0⟩ none none
        (fun _ => []) (fun _ => [])
        (Except.ok (some (SetCookieVal.many ["a=9".data]))) true 5).st.cookies = some e ∧
      (refresh_cookie_with_requests
        ⟨some [("b".data, "2".data)], some "b=2".data, none, 0⟩ none none
        (fun _ => []) (fun _ => [])
        (Except.ok (some (SetCookieVal.many ["a=9".data]))) true 5).st.cookies_str =
        some (serializeEntries e) :=
  raw_entries_sync.2 _ _ _ _ _ _ _ 5 (by decide) (by decide)

/-- C9: when no record is present, `refresh_cookie_with_requests` first
tries to repopulate from the persisted file and then from the environment
variable; if neither yields a record it returns `false` without issuing any
HTTP request, and if one does, the GET is issued with the freshly loaded
`cookies_str` as the `Cookie` header. -/
theorem refresh_absent_loads_then_requests (st : CMState) (file : Option FileData)
    (env : Option PyStr) (tc : PyStr → Entries) (gd : PyStr → PyStr)
    (http : HttpResult) (writeOk : Bool) (now : Int)
    (habs : cookiesTruthy st.cookies = false) :
    ((_load_cookie_from_file st file now).2 = false →
      (_load_cookie_from_env st env tc gd).2 = false →
      (refresh_cookie_with_requests st file env tc gd http writeOk now).ok = false ∧
      (refresh_cookie_with_requests st file env tc gd http writeOk now).request = none) ∧
    (∀ st1, loadIfAbsent st file env tc gd now = (st1, true) →
      (refresh_cookie_with_requests st file env tc gd http writeOk now).request =
        some st1.cookies_str) := by
  constructor
  · intro hf he
    have hfe := load_file_false st file now hf
    have hee := load_env_false st env tc gd he
    have hl : loadIfAbsent st file env tc gd now = (st, false) := by
      simp only [loadIfAbsent, habs, Bool.false_eq_true, if_false]
      rw [hfe]
      exact hee
    simp [refresh_cookie_with_requests, hl]
  · intro st1 hl
    simp only [refresh_cookie_with_requests, hl]
    exact refreshCore_request st1 http writeOk now

theorem refresh_absent_loads_then_requests_instance :
    (refresh_cookie_with_requests ⟨none, none, none, 0⟩ none none (fun _ => [])
        (fun _ => []) (Except.ok none) true 5).ok = false ∧
    (refresh_cookie_with_requests ⟨none, none, none, 0⟩ none none (fun _ => [])
        (fun _ => []) (Except.ok none) true 5).request = none :=
  (refresh_absent_loads_then_requests _ _ _ _ _ _ _ _ (by decide)).1 (by decide) (by decide)

/-- C8: in the discrete time model of `_auto_refresh_loop` — one time unit
per `time.sleep(1)`, `isSet` the (monotone, once set) stop event — once the
event is set at time `T`, the inter-check sleep phase ends no later than
`max t0 T` (it observes the signal at its per-second check, never sleeping
past `T`), the outer loop exits immediately at its next condition check,
and `stop_auto_refresh`'s `join(timeout=5)` returns within 5 seconds of
setting the event, independently of `CHECK_INTERVAL`. -/
theorem stop_signal_responsive (isSet : Nat → Bool)
    (hmono : ∀ a b, a ≤ b → isSet a = true → isSet b = true)
    (T : Nat) (hT : isSet T = true) :
    (∀ n t0, sleepPhase isSet n t0 ≤ max t0 T) ∧
    (∀ (body : Nat → Nat) (fuel t : Nat), T ≤ t →
      autoRefreshLoop isSet body (fuel + 1) t = some t) ∧
    (∀ threadExitsAt stopAt, stopJoinReturn threadExitsAt stopAt ≤ stopAt + 5) := by
  refine ⟨?_, ?_, ?_⟩
  · intro n
    induction n with
    | zero =>
      intro t0
      exact le_max_left t0 T
    | succ m ih =>
      intro t0
      by_cases h : isSet t0 = true
      · simp [sleepPhase, h, le_max_left]
      · have hf : isSet t0 = false := by
          revert h
          cases isSet t0 <;> simp
        have hlt : t0 < T := by
          by_contra hge
          exact h (hmono T t0 (Nat.le_of_not_lt hge) hT)
        have hstep : sleepPhase isSet (m + 1) t0 = sleepPhase isSet m (t0 + 1) := by
          simp [sleepPhase, hf]
        rw [hstep]
        calc sleepPhase isSet m (t0 + 1) ≤ max (t0 + 1) T := ih (t0 + 1)
          _ = T := Nat.max_eq_right hlt
          _ = max t0 T := (Nat.max_eq_right (Nat.le_of_lt hlt)).symm
  · intro body fuel t ht
    have hs := hmono T t ht hT
    simp [autoRefreshLoop, hs]
  · intro threadExitsAt stopAt
    exact Nat.min_le_right _ _

theorem stop_signal_responsive_instance :
    sleepPhase (fun _ => true) CHECK_INTERVAL 7 ≤ max 7 0 ∧
    autoRefreshLoop (fun _ => true) (fun t => t) 1 4 = some 4 ∧
    stopJoinReturn 100 2 ≤ 2 + 5 :=
  ⟨(stop_signal_responsive (fun _ => true) (fun _ _ _ h => h) 0 rfl).1 CHECK_INTERVAL 7,
   (stop_signal_responsive (fun _ => true) (fun _ _ _ h => h) 0 rfl).2.1 (fun t => t) 0 4
     (Nat.zero_le 4),
   (stop_signal_responsive (fun _ => true) (fun _ _ _ h => h) 0 rfl).2.2 100 2⟩

